import Mathlib

/-!
Verification development for the termtool command-line tool framework
(`termtool.py`). The Python source is shallowly embedded below: pure
fragments become Lean functions, the mutation of process-wide state
(umask, logging handlers, stored subcommand metadata) becomes explicit
state passing, and Python data (tuples, dicts, strings) is modelled by
lists, association lists and lists of characters.
-/

namespace Termtool

/-! ### Verbosity and log levels (`Termtool._LogLevelAddAction`) -/

/-- Numeric values of the five logging levels, in the order of the Python
tuple `LEVELS = (CRITICAL, ERROR, WARNING, INFO, DEBUG)`; the `logging`
module defines CRITICAL = 50, ERROR = 40, WARNING = 30, INFO = 20,
DEBUG = 10. -/
def LEVELS : List Nat := [50, 40, 30, 20, 10]

/-- Python sequence subscripting semantics for a tuple of naturals: an
index in `[0, len)` reads from the front, an index in `[-len, 0)` reads
from the back, and anything else raises IndexError (modelled as `none`). -/
def pyTupleGet (t : List Nat) (i : Int) : Option Nat :=
  if 0 ≤ i then t[i.toNat]?
  else if 0 ≤ i + t.length then t[(i + t.length).toNat]?
  else none

/-- Occurrences of the two verbosity flags on the command line. -/
inductive VerbosityFlag
  | flagV
  | flagQ
  deriving DecidableEq, Repr

/-- The `const` passed to the action when each flag is declared:
`-v` is registered with `const=1` and `-q` with `const=-1`. -/
def flagConst : VerbosityFlag → Int
  | .flagV => 1
  | .flagQ => -1

/-- One invocation of `_LogLevelAddAction.__call__`: look up the index of
the current level in `LEVELS`, add the flag constant, and subscript the
tuple with the result; an IndexError leaves the level unchanged, any other
result is stored back into the namespace. Levels reachable from the
default are always members of `LEVELS`, where `List.indexOf` agrees with
Python `tuple.index`. -/
def logLevelStep (level : Nat) (c : Int) : Nat :=
  match pyTupleGet LEVELS ((LEVELS.indexOf level : Int) + c) with
  | none => level
  | some l => l

/-- The level resolved by parsing a sequence of flag occurrences in
command-line order, starting from the default WARNING (30) installed by
`set_defaults(loglevel=logging.WARNING)`. -/
def resolveLogLevel (flags : List VerbosityFlag) : Nat :=
  flags.foldl (fun lv f => logLevelStep lv (flagConst f)) 30

/-! ### Config file content (`write_config_file` / `read_config_file`) -/

/-- Test for the newline character, the argument of Python
`str.strip` in `read_config_file`. -/
def newlineChar (c : Char) : Bool := c == '\n'

/-- File content produced by `write_config_file`: each argument followed
by one newline character, in order. Strings are modelled as `List Char`. -/
def writeConfigContent : List (List Char) → List Char
  | [] => []
  | a :: rest => a ++ '\n' :: writeConfigContent rest

/-- Worker for `pyReadlines`, carrying the reversed characters of the
current (unterminated) line. -/
def pyReadlinesGo (acc : List Char) : List Char → List (List Char)
  | [] => if acc.isEmpty then [] else [acc.reverse]
  | c :: rest =>
    if c == '\n' then (acc.reverse ++ ['\n']) :: pyReadlinesGo [] rest
    else pyReadlinesGo (c :: acc) rest

/-- Python `file.readlines`: split the content into lines, each keeping
its trailing newline; a final unterminated line is kept without one, and
empty content yields no lines. -/
def pyReadlines (s : List Char) : List (List Char) :=
  pyReadlinesGo [] s

/-- Python `line.strip` with the newline character as argument: remove
every leading and trailing newline character. -/
def pyStripNewlines (l : List Char) : List Char :=
  (((l.dropWhile newlineChar).reverse.dropWhile newlineChar)).reverse

/-- The list returned by `read_config_file` for a file with the given
content: each line of `readlines`, newline-stripped. -/
def readConfigArgs (content : List Char) : List (List Char) :=
  (pyReadlines content).map pyStripNewlines

/-! ### Umask and file creation modes (`write_config_file` side effects) -/

/-- Mode of a file created with creation request bits `request` (Python
`open(..., 'w')` requests 0o666) under the process umask: the kernel
clears every permission bit set in the umask. -/
def applyUmask (request umask : Nat) : Nat :=
  request &&& (0o777 ^^^ (umask &&& 0o777))

/-- Process-wide state relevant to file creation: the current umask and
the modes of the files created so far, in creation order. -/
structure ProcState where
  umask : Nat
  createdModes : List Nat
  deriving DecidableEq, Repr

/-- Model of `os.umask(mask)`: replace the process umask (the kernel
keeps only the permission bits). -/
def osUmask (mask : Nat) (st : ProcState) : ProcState :=
  { st with umask := mask &&& 0o777 }

/-- Creating a file with request bits 0o666 (what `open(path, 'w')`
requests when the file does not yet exist) under the current umask;
returns the new state and the created file's mode. -/
def openCreate (st : ProcState) : ProcState × Nat :=
  let mode := applyUmask 0o666 st.umask
  ({ st with createdModes := st.createdModes ++ [mode] }, mode)

/-- State transition of `write_config_file` on the process state: set the
umask to 0o077 (with no restore) and create the config file; returns the
new state and the config file's creation mode. -/
def writeConfigFileProc (st : ProcState) : ProcState × Nat :=
  openCreate (osUmask 0o077 st)

/-- Subsequent file creations performed by the process (for example by
subcommand handlers), each with its own request bits, none touching the
umask; returns the final state and the modes of the files just created. -/
def runCreates : ProcState → List Nat → ProcState × List Nat
  | st, [] => (st, [])
  | st, r :: rs =>
    let m := applyUmask r st.umask
    let res := runCreates { st with createdModes := st.createdModes ++ [m] } rs
    (res.1, m :: res.2)

/-! ### Argument declarations (`argument` decorator and registration) -/

/-- One argument declaration: the positional arguments and keyword
options that would be passed to `add_argument`. -/
structure ArgumentSpec where
  tokens : List String
  options : List (String × String)
  deriving DecidableEq, Repr

/-- Effect of stacking `argument()` decorators written in source order
`decls` over a function: Python applies the innermost (bottom) decorator
first, and each application appends its declaration to the accumulated
`_arguments` list, so the list accumulates in reverse source order. -/
def applyArgumentDecorators (decls : List ArgumentSpec) : List ArgumentSpec :=
  decls.reverse.foldl (fun acc d => acc ++ [d]) []

/-- Order in which `build_arg_parser` registers the declared arguments:
it iterates over `reversed(...)` of the accumulated `_arguments` list. -/
def registeredArguments (decls : List ArgumentSpec) : List ArgumentSpec :=
  (applyArgumentDecorators decls).reverse

/-! ### Subcommand metadata (`subcommand` decorator, metaclass, builder) -/

/-- Resolution of a subcommand's display name by the `subcommand()`
decorator: `name or fn.__name__`, where an omitted or empty (falsy)
explicit name falls back to the function's own name. -/
def resolveSubcommandName (explicit : Option String) (fnName : String) : String :=
  match explicit with
  | none => fnName
  | some n => if n = "" then fnName else n

/-- The mutable metadata attached to a subcommand method: the resolved
name and keyword-option dict stored in `fn._subcommand`, plus the
method's docstring used as a description fallback. -/
structure CommandSpec where
  name : String
  parserOptions : List (String × String)
  doc : Option String
  deriving DecidableEq, Repr

/-- Comparison used by `sorted(self._subcommands, key=lambda c: c._subcommand[0])`:
lexicographic order on the resolved names. -/
def cmdLe (a b : CommandSpec) : Bool := decide (a.name ≤ b.name)

/-- The order in which `build_arg_parser` adds subparsers: a stable sort
of the registered subcommands by resolved name. -/
def sortSubcommands (cmds : List CommandSpec) : List CommandSpec :=
  cmds.mergeSort cmdLe

/-- Python `dict.pop(key)` wrapped in try/except KeyError, on a dict
modelled as an association list: return the popped value (if any) and the
dict with the key removed. -/
def dictPop (k : String) (d : List (String × String)) :
    Option String × List (String × String) :=
  (d.lookup k, d.filter fun kv => kv.1 != k)

/-- What `add_parser` observes for one subcommand: its name, the
description argument, and the remaining keyword options. -/
structure SubparserView where
  name : String
  description : Option String
  parserOptions : List (String × String)
  deriving DecidableEq, Repr

/-- Processing of one subcommand inside `build_arg_parser`: pop the
description key out of the stored options dict (falling back to the
method docstring when absent), pass the rest to `add_parser`, and leave
the stored dict with the key removed — the pop mutates the dict held in
`fn._subcommand`. Returns the observed subparser data and the stored
spec as it stands after the call. -/
def observeCommand (c : CommandSpec) : SubparserView × CommandSpec :=
  let popped := dictPop "description" c.parserOptions
  let desc :=
    match popped.1 with
    | some d => some d
    | none => c.doc
  (⟨c.name, desc, popped.2⟩, { c with parserOptions := popped.2 })

/-- One call to `build_arg_parser` on the tool's stored subcommand list:
the subparsers observed (in sorted order) and the stored metadata as it
stands after the call. -/
def buildArgParser (t : List CommandSpec) : List SubparserView × List CommandSpec :=
  ((sortSubcommands t).map fun c => (observeCommand c).1,
   t.map fun c => (observeCommand c).2)

/-- Concrete tool for exercising the builder: one subcommand whose
decorator supplied a description keyword option. -/
def descTool : List CommandSpec :=
  [⟨"frob", [("description", "from decorator")], some "method docstring"⟩]

/-- Concrete tool whose subcommand decorator supplied no description. -/
def plainTool : List CommandSpec :=
  [⟨"frob", [("help", "frob it")], some "method docstring"⟩]

/-! ### Logging configuration (`configure_tool`) -/

/-- Process-wide state of the root logger: its level, the identities of
its attached handlers, and a counter supplying the identity of the next
handler object constructed. -/
structure LoggingState where
  nextHandlerId : Nat
  handlers : List Nat
  level : Nat
  deriving DecidableEq, Repr

/-- Python `Logger.addHandler`: append the handler unless that same
object is already attached. -/
def addHandler (h : Nat) (hs : List Nat) : List Nat :=
  if h ∈ hs then hs else hs ++ [h]

/-- One call to `configure_tool`: set the root logger's level, construct
a fresh `StreamHandler` (a new object, hence a new identity), and attach
it with `addHandler`. -/
def configureTool (level : Nat) (st : LoggingState) : LoggingState :=
  { nextHandlerId := st.nextHandlerId + 1,
    handlers := addHandler st.nextHandlerId st.handlers,
    level := level }

/-! ### Dispatch (`main`) -/

/-- Outcome of running the selected subcommand handler. -/
inductive HandlerOutcome
  | normal
  | keyboardInterrupt
  | raisesOther
  deriving DecidableEq, Repr

/-- How a call to `main` ends: the parser terminated the process itself
(help or invalid arguments), `main` returned an exit code, or an
exception propagated out of `main` uncaught. -/
inductive MainResult
  | exited (code : Int)
  | returned (code : Int)
  | uncaught
  deriving DecidableEq, Repr

/-- The tail of `main` after the config file is merged: parse the
arguments (argparse either yields a namespace or exits the process), then
run the selected handler under a try/except that converts
KeyboardInterrupt to exit code 1; a normal return yields 0 and any other
exception propagates. -/
def mainDispatch {α : Type} (parsed : Except Int α) (handler : α → HandlerOutcome) :
    MainResult :=
  match parsed with
  | .error code => .exited code
  | .ok ns =>
    match handler ns with
    | .normal => .returned 0
    | .keyboardInterrupt => .returned 1
    | .raisesOther => .uncaught

/-! ### Subcommand registry (`_TermtoolMetaclass.__new__`) -/

/-- One entry of the class body dict `attrs` passed to the metaclass:
its value, carrying a `_subcommand` tuple exactly when the `subcommand()`
decorator tagged it. -/
structure ClassAttr where
  attrName : String
  tag : Option (String × List (String × String))
  deriving DecidableEq, Repr

/-- The `_subcommands` list computed by `_TermtoolMetaclass.__new__`:
the values of the class body dict that carry a `_subcommand` attribute.
Only the class's own body dict is scanned — inherited attributes are not
in `attrs`. -/
def metaclassSubcommands (attrs : List ClassAttr) : List ClassAttr :=
  attrs.filter fun a => a.tag.isSome

/-! ### Helper lemmas -/

/-- A list that contains no newline character is unchanged by dropping
leading newline characters. -/
theorem dropWhile_newline_eq_self (l : List Char) (h : '\n' ∉ l) :
    l.dropWhile newlineChar = l := by
  cases l with
  | nil => rfl
  | cons c cs =>
    have hc : ¬ c = '\n' := fun e => h (e ▸ List.mem_cons_self c cs)
    rw [List.dropWhile_cons]
    simp [newlineChar, hc]

/-- Stripping newline characters from a newline-free string with one
trailing newline recovers the string. -/
theorem pyStripNewlines_append_newline (a : List Char) (h : '\n' ∉ a) :
    pyStripNewlines (a ++ ['\n']) = a := by
  cases a with
  | nil => rfl
  | cons c cs =>
    have hc : ¬ c = '\n' := fun e => h (by simp [e])
    unfold pyStripNewlines
    have h1 : ((c :: cs) ++ ['\n']).dropWhile newlineChar = (c :: cs) ++ ['\n'] := by
      rw [List.cons_append, List.dropWhile_cons]
      simp [newlineChar, hc]
    rw [h1]
    have h2 : ((c :: cs) ++ ['\n']).reverse = '\n' :: (c :: cs).reverse := by
      rw [List.reverse_append]
      rfl
    rw [h2, List.dropWhile_cons]
    have h3 : newlineChar '\n' = true := rfl
    rw [if_pos h3]
    have h4 : '\n' ∉ (c :: cs).reverse := fun m => h (List.mem_reverse.mp m)
    rw [dropWhile_newline_eq_self _ h4, List.reverse_reverse]

/-- Splitting behaviour of the readlines worker at the first newline of
the remaining content, when the text before it is newline-free. -/
theorem pyReadlinesGo_line (a : List Char) (h : '\n' ∉ a) (acc t : List Char) :
    pyReadlinesGo acc (a ++ '\n' :: t) =
      (acc.reverse ++ (a ++ ['\n'])) :: pyReadlinesGo [] t := by
  induction a generalizing acc with
  | nil =>
    simp [pyReadlinesGo]
  | cons c cs ih =>
    have hc : ¬ c = '\n' := fun e => h (by simp [e])
    have hcs : '\n' ∉ cs := fun m => h (by simp [m])
    have hbeq : (c == '\n') = false := by simp [hc]
    rw [List.cons_append]
    show pyReadlinesGo acc (c :: (cs ++ '\n' :: t)) = _
    rw [pyReadlinesGo, hbeq]
    simp only [Bool.false_eq_true, if_false]
    rw [ih hcs (c :: acc)]
    simp [List.append_assoc]

/-- Filtering away entries with a key that is absent from an association
list leaves the list unchanged. -/
theorem filter_ne_key_of_lookup_none (k : String) (d : List (String × String))
    (h : d.lookup k = none) : (d.filter fun kv => kv.1 != k) = d := by
  induction d with
  | nil => rfl
  | cons kv rest ih =>
    cases kv with
    | mk k1 v =>
      cases hbeq : (k == k1) with
      | true => simp [List.lookup, hbeq] at h
      | false =>
        have h2 : rest.lookup k = none := by simpa [List.lookup, hbeq] using h
        have hne : ¬ k1 = k := by
          intro e
          rw [e] at hbeq
          simp at hbeq
        simp [List.filter_cons, hne, ih h2]

/-- Folding list append over a list concatenates it onto the
accumulator. -/
theorem foldl_append_eq (l acc : List ArgumentSpec) :
    l.foldl (fun a d => a ++ [d]) acc = acc ++ l := by
  induction l generalizing acc with
  | nil => simp
  | cons d ds ih => simp [List.foldl_cons, ih]

/-- Created modes under umask 0o077 always deny group and other
access. -/
theorem applyUmask_owner_only (r : Nat) : applyUmask r 0o077 &&& 0o077 = 0 := by
  have h1 : ((0o777 : Nat) ^^^ (0o077 &&& 0o777)) = 0o700 := by decide
  have h2 : ((0o700 : Nat) &&& 0o077) = 0 := by decide
  unfold applyUmask
  rw [h1, Nat.and_assoc, h2, Nat.and_zero]

/-- Every run of file creations from a state with umask 0o077 keeps the
umask at 0o077 and creates only files with group and other access
denied. -/
theorem runCreates_owner_only (reqs : List Nat) (st : ProcState) (h : st.umask = 0o077) :
    (runCreates st reqs).1.umask = 0o077 ∧
    ((runCreates st reqs).2.all fun m => m &&& 0o077 == 0) = true := by
  induction reqs generalizing st with
  | nil => exact ⟨h, rfl⟩
  | cons r rs ih =>
    have h2 : ({ st with createdModes :=
        st.createdModes ++ [applyUmask r st.umask] } : ProcState).umask = 0o077 := h
    obtain ⟨hu, ha⟩ := ih _ h2
    refine ⟨hu, ?_⟩
    show ((applyUmask r st.umask ::
      (runCreates { st with createdModes :=
        st.createdModes ++ [applyUmask r st.umask] } rs).2).all fun m => m &&& 0o077 == 0) = true
    rw [List.all_cons, ha, h]
    simp [applyUmask_owner_only r]

/-! ### Claim theorems -/

/-- Claim C1 (failing input): parsing three successive `-q` occurrences
from the default WARNING level makes the embedded action wrap around to
DEBUG (10) — `LEVELS[-1]` is valid Python negative indexing, so no
IndexError fires — instead of staying clamped at CRITICAL (50) as the
claim states. -/
theorem c1_loglevel_wraparound_eval :
    resolveLogLevel [.flagQ, .flagQ, .flagQ] = 10 ∧
    resolveLogLevel [.flagQ, .flagQ, .flagQ] ≠ 50 := by
  decide

/-- Claim C2 (counterexample): for a tool whose subcommand decorator
supplied a description option, the subparser data observed by a second
call to the builder differs from the first call's — the first call popped
the description out of the stored metadata. -/
theorem c2_counterexample_second_build_differs :
    ¬ ((buildArgParser (buildArgParser descTool).2).1 = (buildArgParser descTool).1) := by
  have e2 : (buildArgParser descTool).2 =
      [⟨"frob", [], some "method docstring"⟩] := by decide
  rw [e2]
  show ¬ ((sortSubcommands [⟨"frob", [], some "method docstring"⟩]).map
      (fun c => (observeCommand c).1) =
    (sortSubcommands descTool).map fun c => (observeCommand c).1)
  unfold sortSubcommands descTool
  rw [List.mergeSort_singleton, List.mergeSort_singleton]
  decide

/-- Claim C2 (amended): building the argument parser leaves the stored
subcommand metadata unchanged — so two successive calls observe the same
subparser data — provided no per-command description was supplied to the
subcommand decorator; when one was supplied, the first build pops it out
of the stored options and later builds fall back to the method
docstring. -/
theorem c2_build_preserves_metadata_without_description (t : List CommandSpec)
    (h : ∀ c ∈ t, c.parserOptions.lookup "description" = none) :
    (buildArgParser t).2 = t ∧
    (buildArgParser (buildArgParser t).2).1 = (buildArgParser t).1 := by
  have h1 : (buildArgParser t).2 = t := by
    show (t.map fun c => (observeCommand c).2) = t
    induction t with
    | nil => rfl
    | cons c rest ih =>
      have hc := h c (List.mem_cons_self c rest)
      have hrest : ∀ x ∈ rest, x.parserOptions.lookup "description" = none :=
        fun x hx => h x (List.mem_cons_of_mem c hx)
      rw [List.map_cons, ih hrest]
      show ({ c with parserOptions :=
        c.parserOptions.filter fun kv => kv.1 != "description" } :: rest) = c :: rest
      rw [filter_ne_key_of_lookup_none _ _ hc]
  exact ⟨h1, by rw [h1]⟩

/-- Witness for claim C2's amended theorem at a concrete tool whose
decorator supplied no description option. -/
theorem c2_amended_witness : (buildArgParser plainTool).2 = plainTool :=
  (c2_build_preserves_metadata_without_description plainTool (by decide)).1

/-- Claim C3 (counterexample): calling the logging configuration twice
from a fresh root logger attaches two stream handlers, not the one that
a single call attaches. -/
theorem c3_counterexample_duplicate_handlers :
    ¬ ((configureTool 30 (configureTool 30 ⟨0, [], 30⟩)).handlers =
      (configureTool 30 ⟨0, [], 30⟩).handlers) := by
  decide

/-- Claim C3 (amended): each call to the logging configuration
constructs a fresh stream handler and attaches it, so a repeated
invocation grows the attached-handler list by exactly one per call —
repeated invocations do leak duplicate handlers, and only a single
invocation per process leaves a single handler attached. -/
theorem c3_each_call_adds_one_handler (level : Nat) (st : LoggingState)
    (h : ∀ x ∈ st.handlers, x < st.nextHandlerId) :
    (configureTool level st).handlers.length = st.handlers.length + 1 ∧
    ∀ x ∈ (configureTool level st).handlers, x < (configureTool level st).nextHandlerId := by
  have hnot : st.nextHandlerId ∉ st.handlers := fun hm => lt_irrefl _ (h _ hm)
  constructor
  · simp [configureTool, addHandler, hnot]
  · intro x hx
    simp only [configureTool, addHandler, if_neg hnot, List.mem_append,
      List.mem_singleton] at hx
    rcases hx with hx | hx
    · exact Nat.lt_succ_of_lt (h x hx)
    · exact hx ▸ Nat.lt_succ_self _

/-- Witness for claim C3's amended theorem: a single call on a fresh
root logger attaches exactly one handler. -/
theorem c3_amended_witness :
    (configureTool 30 ⟨0, [], 30⟩).handlers.length =
      (LoggingState.mk 0 [] 30).handlers.length + 1 :=
  (c3_each_call_adds_one_handler 30 ⟨0, [], 30⟩ (by decide)).1

/-- Claim C4: when the arguments parse successfully, main returns 0 when
the selected handler completes normally, returns 1 when the handler is
interrupted by KeyboardInterrupt, and returns no other exit code
itself. -/
theorem c4_main_exit_codes {α : Type} (parsed : Except Int α)
    (handler : α → HandlerOutcome) (ns : α) (h : parsed = .ok ns) :
    (handler ns = .normal → mainDispatch parsed handler = .returned 0) ∧
    (handler ns = .keyboardInterrupt → mainDispatch parsed handler = .returned 1) ∧
    ∀ c, mainDispatch parsed handler = .returned c → c = 0 ∨ c = 1 := by
  subst h
  cases hh : handler ns with
  | normal =>
    refine ⟨fun _ => ?_, fun hcontra => ?_, fun c hc => ?_⟩
    · simp [mainDispatch, hh]
    · cases hcontra
    · simp only [mainDispatch, hh, MainResult.returned.injEq] at hc
      exact Or.inl hc.symm
  | keyboardInterrupt =>
    refine ⟨fun hcontra => ?_, fun _ => ?_, fun c hc => ?_⟩
    · cases hcontra
    · simp [mainDispatch, hh]
    · simp only [mainDispatch, hh, MainResult.returned.injEq] at hc
      exact Or.inr hc.symm
  | raisesOther =>
    refine ⟨fun hcontra => ?_, fun hcontra => ?_, fun c hc => ?_⟩
    · cases hcontra
    · cases hcontra
    · simp [mainDispatch, hh] at hc

/-- Witness for claim C4 at a concrete successful parse and a normally
completing handler. -/
theorem c4_witness :
    mainDispatch (Except.ok ()) (fun _ : Unit => HandlerOutcome.normal) =
      MainResult.returned 0 :=
  (c4_main_exit_codes (Except.ok ()) (fun _ : Unit => HandlerOutcome.normal) () rfl).1 rfl

/-- Claim C5: writing a config file with any ordered list of
newline-free arguments and reading it back yields exactly the same list
in the same order. -/
theorem c5_config_roundtrip (args : List (List Char)) (h : ∀ a ∈ args, '\n' ∉ a) :
    readConfigArgs (writeConfigContent args) = args := by
  induction args with
  | nil => rfl
  | cons a rest ih =>
    have ha : '\n' ∉ a := h a (List.mem_cons_self a rest)
    have hrest : ∀ x ∈ rest, '\n' ∉ x := fun x hx => h x (List.mem_cons_of_mem a hx)
    show readConfigArgs (a ++ '\n' :: writeConfigContent rest) = a :: rest
    unfold readConfigArgs pyReadlines
    rw [pyReadlinesGo_line a ha [] (writeConfigContent rest), List.map_cons]
    simp only [List.reverse_nil, List.nil_append]
    rw [pyStripNewlines_append_newline a ha]
    exact congrArg (a :: ·) (ih hrest)

/-- Witness for claim C5 at the spec's example argument list. -/
theorem c5_roundtrip_witness :
    readConfigArgs (writeConfigContent ["--foo".data, "bar".data]) =
      ["--foo".data, "bar".data] :=
  c5_config_roundtrip ["--foo".data, "bar".data] (by decide)

/-- Claim C6: for every prior process state (and hence every tool and
argument list), a config file created by write_config_file is created
with mode 0o600, so its group and other permission bits are all
denied. -/
theorem c6_config_file_owner_only (st : ProcState) :
    (writeConfigFileProc st).2 = 0o600 ∧ (writeConfigFileProc st).2 &&& 0o077 = 0 := by
  constructor
  · show applyUmask 0o666 (0o077 &&& 0o777) = 0o600
    decide
  · show applyUmask 0o666 (0o077 &&& 0o777) &&& 0o077 = 0
    decide

/-- Claim C7: the decorator accumulates argument declarations in reverse
source order, the builder registers the reverse of the accumulated list,
and therefore the registration order equals the source declaration
order. -/
theorem c7_argument_registration_order (decls : List ArgumentSpec) :
    applyArgumentDecorators decls = decls.reverse ∧
    registeredArguments decls = decls := by
  have h1 : applyArgumentDecorators decls = decls.reverse := by
    unfold applyArgumentDecorators
    rw [foldl_append_eq]
    simp
  refine ⟨h1, ?_⟩
  unfold registeredArguments
  rw [h1, List.reverse_reverse]

/-- Claim C8: whatever the declaration order, the builder adds the
subcommands in lexicographic order of their resolved names: the sorted
list is ordered by name and is a permutation of the declared
subcommands. -/
theorem c8_subcommands_sorted_by_name (cmds : List CommandSpec) :
    ((sortSubcommands cmds).map CommandSpec.name).Sorted (· ≤ ·) ∧
    (sortSubcommands cmds).Perm cmds := by
  constructor
  · have htrans : ∀ a b c : CommandSpec,
        cmdLe a b = true → cmdLe b c = true → cmdLe a c = true := by
      intro a b c hab hbc
      simp only [cmdLe, decide_eq_true_eq] at hab hbc ⊢
      exact le_trans hab hbc
    have htot : ∀ a b : CommandSpec, (cmdLe a b || cmdLe b a) = true := by
      intro a b
      simp only [cmdLe, Bool.or_eq_true, decide_eq_true_eq]
      exact le_total a.name b.name
    have hp := List.sorted_mergeSort htrans htot cmds
    show ((cmds.mergeSort cmdLe).map CommandSpec.name).Pairwise (· ≤ ·)
    rw [List.pairwise_map]
    exact hp.imp fun hab => by simpa only [cmdLe, decide_eq_true_eq] using hab
  · exact List.mergeSort_perm cmds cmdLe

/-- Claim C9: write_config_file leaves the process umask at 0o077 with
no restore, so after it runs, every file later created by the process
(with any requested mode bits) has all group and other permission bits
denied, and the umask is still 0o077 at the end. -/
theorem c9_umask_change_is_permanent (st : ProcState) (reqs : List Nat) :
    (runCreates (writeConfigFileProc st).1 reqs).1.umask = 0o077 ∧
    ((runCreates (writeConfigFileProc st).1 reqs).2.all fun m => m &&& 0o077 == 0) = true := by
  apply runCreates_owner_only
  show (0o077 &&& 0o777 : Nat) = 0o077
  decide

/-- Claim C10: the subcommand registry computed by the metaclass holds
exactly the tagged values of the class's own body dict, so a tagged
method inherited from a base class (absent from the body dict) is not in
the registry. -/
theorem c10_registry_is_own_body_only (attrs : List ClassAttr) (m : ClassAttr) :
    m ∈ metaclassSubcommands attrs ↔ m ∈ attrs ∧ m.tag.isSome = true := by
  simp [metaclassSubcommands, List.mem_filter]

end Termtool

